import Mathlib

/-!
Verification of the `photos_creation_date_overwrite` batch tool
(`src/photos_creation_date_overwrite/__main__.py`).

The development shallowly embeds the program's pure core:

* `extract_date_from_filename` — the regex search `IMG[-_](\d{8})[-_]`
  followed by `datetime.strptime(date_str, '%Y%m%d')`.  The strptime call
  sits outside any `try`, so an 8-digit group that is not a valid calendar
  date raises a `ValueError` that propagates out of `main`; the embedding
  therefore returns `Except Unit (Option Date)` where `.error ()` is the
  uncaught exception, `.ok none` a non-matching filename and `.ok (some d)`
  a successful extraction.
* `get_exif_date` / `update_exif_date` — the EXIF block is modelled as a
  record of optional sections (`0th`, `Exif`, `GPS`, thumbnail), each
  section a map from numeric tag to string value (piexif byte values are
  UTF-8 decoded before parsing and encoded after formatting; a value whose
  bytes do not decode behaves exactly like a value that fails `strptime`,
  both ending in the enclosing `except` handler, so values are modelled as
  strings directly).  `piexif.load`, which may raise on a corrupt file, is
  modelled as an `Except Unit ExifDict` field of the input file, and the
  possible failure of `piexif.dump`/`piexif.insert` as a boolean oracle.
* `processFile` / `runFiles` / `mainRun` — the driver loop of `main`,
  with the per-file branching, the `UpdateReport` counters, the empty
  input early return, and the crash caused by an invalid filename date.

`\d` of the Python regex and the digit classes of CPython's `_strptime`
regexes are modelled as the ASCII digits.  CPython's `%Y%m%d` decoding of
an 8-digit group succeeds exactly when digits 0-3 form a year 1..9999,
digits 4-5 a month 01..12, digits 6-7 a day 01..31 that exists in that
month: the `_strptime` patterns (`%Y` = four digits, `%m` =
`1[0-2]|0[1-9]|[1-9]`, `%d` = `3[01]|[12]\d|0[1-9]|[1-9]`) either consume
exactly 4+2+2 characters or leave unconverted data (an error), and the
`datetime` constructor then validates the calendar date.  The embedding
uses this characterisation directly.  Likewise `%Y:%m:%d %H:%M:%S` is
embedded as a token parser whose per-field conditions (run of 1-2 digits,
numeric range) are exactly the ones accepted by the `_strptime` regexes
followed by `datetime` validation.
-/

/-! ## Dates and times -/

/-- A calendar date, the payload of Python's `datetime` as produced by
`strptime('%Y%m%d')` (the time part of that value is midnight and is
discarded by `.date()` everywhere it is used). -/
structure Date where
  year : Nat
  month : Nat
  day : Nat
deriving DecidableEq, Repr

/-- A date-time with seconds resolution, the payload of Python's
`datetime` as produced by `strptime('%Y:%m:%d %H:%M:%S')`. -/
structure DateTime where
  year : Nat
  month : Nat
  day : Nat
  hour : Nat
  minute : Nat
  second : Nat
deriving DecidableEq, Repr

/-- `datetime.date()`: forget the time-of-day. -/
def DateTime.dateOf (t : DateTime) : Date :=
  ⟨t.year, t.month, t.day⟩

/-- Gregorian leap year, as implemented by Python's `datetime`. -/
def isLeapYear (y : Nat) : Bool :=
  (y % 4 = 0 && y % 100 ≠ 0) || y % 400 = 0

/-- Days in a month, as implemented by Python's `datetime`. -/
def daysInMonth (y m : Nat) : Nat :=
  if m = 2 then (if isLeapYear y then 29 else 28)
  else if m = 4 ∨ m = 6 ∨ m = 9 ∨ m = 11 then 30
  else 31

/-- The dates accepted by Python's `datetime` constructor
(`MINYEAR = 1`, `MAXYEAR = 9999`). -/
def validDate (y m d : Nat) : Bool :=
  1 ≤ y && y ≤ 9999 && 1 ≤ m && m ≤ 12 && 1 ≤ d && d ≤ daysInMonth y m

/-- The times of day accepted by Python's `datetime` constructor. -/
def validTime (h mi s : Nat) : Bool :=
  h ≤ 23 && mi ≤ 59 && s ≤ 59

/-! ## Digits -/

/-- Numeric value of an ASCII digit character. -/
def digitVal (c : Char) : Nat := c.toNat - 48

/-- Decimal value of a digit string (most significant first). -/
def digitsToNat (l : List Char) : Nat :=
  l.foldl (fun a c => 10 * a + digitVal c) 0

/-- The ASCII digit character for `n ≤ 9`. -/
def digitChar (n : Nat) : Char := Char.ofNat (48 + n)

/-- `'%02d'`: two-digit zero-padded rendering (faithful for `n ≤ 99`,
the range of every month/day/hour/minute/second field). -/
def pad2 (n : Nat) : List Char :=
  [digitChar (n / 10 % 10), digitChar (n % 10)]

/-- `'%Y'` for the years `datetime` can hold (1..9999): four-digit
zero-padded rendering. -/
def pad4 (n : Nat) : List Char :=
  [digitChar (n / 1000 % 10), digitChar (n / 100 % 10),
   digitChar (n / 10 % 10), digitChar (n % 10)]

/-! ## Filename date extraction (`_extract_date_from_filename`) -/

/-- One anchored attempt of the pattern `IMG[-_](\d{8})[-_]` at the head
of `l`; returns the captured 8-digit group. -/
def matchIMGAt (l : List Char) : Option (List Char) :=
  match l with
  | 'I' :: 'M' :: 'G' :: s :: d1 :: d2 :: d3 :: d4 :: d5 :: d6 :: d7 :: d8 :: s2 :: _ =>
    if (s = '-' ∨ s = '_') ∧
       (d1.isDigit && d2.isDigit && d3.isDigit && d4.isDigit &&
        d5.isDigit && d6.isDigit && d7.isDigit && d8.isDigit) = true ∧
       (s2 = '-' ∨ s2 = '_') then
      some [d1, d2, d3, d4, d5, d6, d7, d8]
    else none
  | _ => none

/-- `re.search`: the pattern is tried at each start position from the
left; the first (leftmost) match wins. -/
def searchIMG : List Char → Option (List Char)
  | [] => none
  | c :: rest =>
    match matchIMGAt (c :: rest) with
    | some ds => some ds
    | none => searchIMG rest

/-- `datetime.strptime(date_str, '%Y%m%d')` on the captured 8-digit
group, by its net effect (see the header comment): `some` exactly when
the digits spell a valid `YYYYMMDD` calendar date, `none` standing for
the raised `ValueError` otherwise. -/
def strptimeYMD (ds : List Char) : Option Date :=
  match ds with
  | [y1, y2, y3, y4, m1, m2, e1, e2] =>
    let y := digitsToNat [y1, y2, y3, y4]
    let m := digitsToNat [m1, m2]
    let d := digitsToNat [e1, e2]
    if validDate y m d then some ⟨y, m, d⟩ else none
  | _ => none

/-- `_extract_date_from_filename`.  `.ok none` = no pattern match
(`return None`), `.ok (some d)` = extracted date, `.error ()` = the
`ValueError` raised by `strptime` on a matching pattern whose digits are
not a valid date — the call has no exception handler, so this error
propagates out of `main`. -/
def extract_date_from_filename (filename : String) : Except Unit (Option Date) :=
  match searchIMG filename.toList with
  | none => .ok none
  | some ds =>
    match strptimeYMD ds with
    | some d => .ok (some d)
    | none => .error ()

example : extract_date_from_filename "IMG-20201107-WA0029.jpg" = .ok (some ⟨2020, 11, 7⟩) := rfl
example : extract_date_from_filename "IMG_20201107_WA0030.jpg" = .ok (some ⟨2020, 11, 7⟩) := rfl
example : extract_date_from_filename "random_photo.jpg" = .ok none := rfl
example : extract_date_from_filename "IMG-20201399-WA0001.jpg" = .error () := rfl
example : extract_date_from_filename "IMG-20201107.jpg" = .ok none := rfl

/-! ## The textual timestamp codec (`'%Y:%m:%d %H:%M:%S'`) -/

/-- Longest digit run at the head of the input, with the rest: the
backbone of each numeric field of CPython's `_strptime` regex. -/
def takeDigits : List Char → List Char × List Char
  | [] => ([], [])
  | c :: r =>
    if c.isDigit then
      let p := takeDigits r
      (c :: p.1, p.2)
    else ([], c :: r)

/-- Consume one expected literal character (a separator of the format
string); `none` is the `ValueError` of a failed match. -/
def expectChar (c : Char) : List Char → Option (List Char)
  | x :: r => if x = c then some r else none
  | [] => none

/-- One numeric field of `_strptime` followed by a non-digit
separator: the digit run must have length 1 or 2 and value in
`lo..hi` — exactly the strings accepted by the `%m`, `%d`, `%H`, `%M`,
`%S` regex alternations (see the header comment). -/
def readField (lo hi : Nat) (l : List Char) : Option (Nat × List Char) :=
  let p := takeDigits l
  let v := digitsToNat p.1
  if (p.1.length = 1 ∨ p.1.length = 2) ∧ lo ≤ v ∧ v ≤ hi then some (v, p.2) else none

/-- `datetime.strptime(s, '%Y:%m:%d %H:%M:%S')`, returning `none` for
the raised `ValueError` (the callers catch it): four-digit year,
month/day/hour/minute/second fields as accepted by the `_strptime`
regexes (seconds up to 61 there), full consumption of the input
(`unconverted data remains` otherwise), then the `datetime` constructor
validation of the calendar date and time of day. -/
def parseExifDateTime (s : String) : Option DateTime :=
  let l := s.toList
  let p := takeDigits l
  if p.1.length = 4 then
    (expectChar ':' p.2).bind fun r2 =>
    (readField 1 12 r2).bind fun q1 =>
    (expectChar ':' q1.2).bind fun r4 =>
    (readField 1 31 r4).bind fun q2 =>
    (expectChar ' ' q2.2).bind fun r6 =>
    (readField 0 23 r6).bind fun q3 =>
    (expectChar ':' q3.2).bind fun r8 =>
    (readField 0 59 r8).bind fun q4 =>
    (expectChar ':' q4.2).bind fun r10 =>
    (readField 0 61 r10).bind fun q5 =>
    let y := digitsToNat p.1
    if q5.2 = [] ∧ validDate y q1.1 q2.1 = true ∧ validTime q3.1 q4.1 q5.1 = true then
      some ⟨y, q1.1, q2.1, q3.1, q4.1, q5.1⟩
    else none
  else none

/-- `t.strftime('%Y:%m:%d %H:%M:%S')`-shaped rendering used to state
the codec round trip (the program itself only ever formats with the
literal `09:00:00` time, see `exifDateString`). -/
def formatDateTime (t : DateTime) : String :=
  ⟨pad4 t.year ++ ':' :: (pad2 t.month ++ ':' :: (pad2 t.day ++ ' ' ::
   (pad2 t.hour ++ ':' :: (pad2 t.minute ++ ':' :: pad2 t.second))))⟩

/-- `new_date.strftime('%Y:%m:%d 09:00:00')` of `_update_exif_date`:
the date fields are rendered and the time of day is the literal text
`09:00:00`. -/
def exifDateString (d : Date) : String :=
  ⟨pad4 d.year ++ ':' :: (pad2 d.month ++ ':' :: (pad2 d.day ++ ' ' ::
   ['0', '9', ':', '0', '0', ':', '0', '0']))⟩

example : parseExifDateTime "2020:11:07 14:22:01" = some ⟨2020, 11, 7, 14, 22, 1⟩ := rfl
example : parseExifDateTime "2020:13:07 14:22:01" = none := rfl
example : parseExifDateTime "garbage" = none := rfl
example : parseExifDateTime "2020:11:07 14:22:01 " = none := rfl
example : parseExifDateTime (exifDateString ⟨2020, 11, 7⟩) = some ⟨2020, 11, 7, 9, 0, 0⟩ := rfl

/-! ## The EXIF block model -/

/-- `piexif.ExifIFD.DateTimeOriginal`. -/
def DateTimeOriginalTag : Nat := 36867

/-- `piexif.ExifIFD.DateTimeDigitized`. -/
def DateTimeDigitizedTag : Nat := 36868

/-- `piexif.ImageIFD.DateTime` (the top-level date-time field). -/
def DateTimeTag : Nat := 306

/-- One IFD of the loaded EXIF dictionary: numeric tag to value. -/
abbrev ExifSection := Nat → Option String

/-- The dictionary returned by `piexif.load`.  The sections are
optional so that the source's `'Exif' not in exif_dict` /
`'0th' in exif_dict` membership tests are represented; piexif itself
always populates every section (possibly empty), which the theorems
take as a hypothesis where it matters.  `gps` and `thumbnail` stand
for the data the program never touches. -/
structure ExifDict where
  zeroth : Option ExifSection
  exifIFD : Option ExifSection
  gps : Option ExifSection
  thumbnail : Option String

/-- Tag lookup through an optional section (`none` both for a missing
section and a missing tag). -/
def sectionGet (s : Option ExifSection) (tag : Nat) : Option String :=
  match s with
  | none => none
  | some f => f tag

/-- One input image, as the driver sees it: its filename, the outcome
of `piexif.load` on its bytes (`.error ()` = the raise of a corrupt or
unsupported file), and whether `piexif.dump` + `piexif.insert` would
succeed for it (an oracle for the external codec's write-side
failures). -/
structure ImageFile where
  name : String
  loaded : Except Unit ExifDict
  writeOk : Bool

/-- `_get_exif_date`: load the EXIF dict (any raise is caught by the
function's `except` handler → `None`); if the `Exif` section is absent
return `None`; else prefer `DateTimeOriginal`, falling back to the
`0th` section's `DateTime`; parse failures of a present value are
caught by the same handler → `None` (no fallback happens then: the
`elif` is never reached). -/
def get_exif_date (f : ImageFile) : Option DateTime :=
  match f.loaded with
  | .error _ => none
  | .ok dict =>
    match dict.exifIFD with
    | none => none
    | some ex =>
      match ex DateTimeOriginalTag with
      | some s => parseExifDateTime s
      | none =>
        match dict.zeroth with
        | none => none
        | some z =>
          match z DateTimeTag with
          | some s => parseExifDateTime s
          | none => none

/-- The dictionary update of `_update_exif_date`: initialise the `Exif`
and `0th` sections if absent, then write the formatted timestamp under
`DateTimeOriginal`, `DateTime` (0th) and `DateTimeDigitized`. -/
def setExifDates (dict : ExifDict) (d : Date) : ExifDict :=
  let str := exifDateString d
  let ex : ExifSection := fun t => sectionGet dict.exifIFD t
  let z : ExifSection := fun t => sectionGet dict.zeroth t
  { zeroth := some fun t => if t = DateTimeTag then some str else z t,
    exifIFD := some fun t =>
      if t = DateTimeOriginalTag ∨ t = DateTimeDigitizedTag then some str else ex t,
    gps := dict.gps,
    thumbnail := dict.thumbnail }

/-- `_update_exif_date`: load, update the three date fields, dump and
insert into the output copy.  Every raise is caught by the function's
handler and surfaces as `False` (`none` here); success returns `True`
together with the block written to the output copy (`some`). -/
def update_exif_date (f : ImageFile) (d : Date) : Option ExifDict :=
  match f.loaded with
  | .error _ => none
  | .ok dict => if f.writeOk then some (setExifDates dict d) else none

/-! ## Reconciliation and the batch driver (`main`) -/

/-- The four reconciliation outcomes of the spec's decision table. -/
inductive ReconcileAction where
  | preserve
  | add
  | overwrite
  | unparseable
deriving DecidableEq, Repr

/-- The per-file decision of `main` (lines 42-78), as a function of the
filename date and the embedded date: no filename date → `unparseable`
(file copied verbatim); embedded date absent → `add`; same calendar
date (`filename_date.date() == exif_date.date()`, time-of-day
discarded) → `preserve`; different calendar date → `overwrite`. -/
def reconcile (fd : Option Date) (ed : Option DateTime) : ReconcileAction :=
  match fd with
  | none => .unparseable
  | some d =>
    match ed with
    | none => .add
    | some e => if e.dateOf = d then .preserve else .overwrite

/-- How one file's processing ended, i.e. which counter (if any) the
driver bumps for it. -/
inductive FileOutcome where
  | unparsed
  | preservedFile
  | updatedFile
  | addedFile
  | failedFile
deriving DecidableEq, Repr

/-- What lands in the output directory for one file: a byte-identical
copy (`shutil.copy2`) or a copy whose EXIF block was replaced by the
given one (`piexif.insert`). -/
inductive OutputContent where
  | verbatim
  | rewritten (dict : ExifDict)

/-- Result of processing a single file. -/
structure ProcResult where
  outcome : FileOutcome
  output : OutputContent

/-- The per-file body of `main`'s loop.  `.error ()` is the uncaught
`ValueError` of `_extract_date_from_filename` on a matching pattern
with an invalid date, which aborts the whole run. -/
def processFile (f : ImageFile) : Except Unit ProcResult :=
  match extract_date_from_filename f.name with
  | .error _ => .error ()
  | .ok none => .ok ⟨.unparsed, .verbatim⟩
  | .ok (some d) =>
    .ok <|
      match get_exif_date f with
      | some e =>
        if e.dateOf = d then ⟨.preservedFile, .verbatim⟩
        else
          match update_exif_date f d with
          | some out => ⟨.updatedFile, .rewritten out⟩
          | none => ⟨.failedFile, .verbatim⟩
      | none =>
        match update_exif_date f d with
        | some out => ⟨.addedFile, .rewritten out⟩
        | none => ⟨.failedFile, .verbatim⟩

/-- The `UpdateReport` counters. -/
structure UpdateReport where
  updated : Nat := 0
  added : Nat := 0
  failed : Nat := 0
  preserved : Nat := 0
deriving DecidableEq, Repr

/-- The counter bump performed by `main` for one processed file: none
for an unparseable filename (the loop `continue`s), otherwise exactly
the one counter named by the outcome. -/
def tally (r : UpdateReport) (o : FileOutcome) : UpdateReport :=
  match o with
  | .unparsed => r
  | .preservedFile => { r with preserved := r.preserved + 1 }
  | .updatedFile => { r with updated := r.updated + 1 }
  | .addedFile => { r with added := r.added + 1 }
  | .failedFile => { r with failed := r.failed + 1 }

/-- `main`'s loop over the enumerated files, threading the report;
`.error ()` when some file's extraction raises (the run dies there and
the report is never printed). -/
def runFiles : UpdateReport → List ImageFile → Except Unit UpdateReport
  | r, [] => .ok r
  | r, f :: rest =>
    match processFile f with
    | .error _ => .error ()
    | .ok pr => runFiles (tally r pr.outcome) rest

/-- The observable shape of one `main` invocation: whether the
"No .jpg files found" message was printed, whether the timestamped
output subdirectory was created, and the report printed at the end
(absent when the run returned early or crashed). -/
structure MainResult where
  noFilesMessage : Bool
  outputDirCreated : Bool
  printedSummary : Option UpdateReport
deriving DecidableEq, Repr

/-- `main`: empty enumeration → message and early `return` (before the
output subdirectory is created); otherwise create the subdirectory,
run the loop, and print the report iff the loop finished. -/
def mainRun (files : List ImageFile) : MainResult :=
  if files.isEmpty then ⟨true, false, none⟩
  else
    match runFiles {} files with
    | .ok r => ⟨false, true, some r⟩
    | .error _ => ⟨false, true, none⟩

/-- Did this file's name yield a date (the files `main` counts)? -/
def hasFilenameDate (f : ImageFile) : Bool :=
  match extract_date_from_filename f.name with
  | .ok (some _) => true
  | _ => false

/-- Sum of the four counters. -/
def reportTotal (r : UpdateReport) : Nat :=
  r.updated + r.added + r.failed + r.preserved

/-! ## Helper lemmas: digits and padding -/

theorem digitChar_isDigit {n : Nat} (h : n ≤ 9) : (digitChar n).isDigit = true := by
  interval_cases n <;> decide

theorem digitVal_digitChar {n : Nat} (h : n ≤ 9) : digitVal (digitChar n) = n := by
  interval_cases n <;> decide

theorem pad2_all_digits (n : Nat) : ∀ c ∈ pad2 n, c.isDigit = true := by
  intro c hc
  simp only [pad2, List.mem_cons, List.mem_singleton, List.not_mem_nil, or_false] at hc
  rcases hc with h | h <;> subst h <;>
    exact digitChar_isDigit (Nat.le_of_lt_succ (Nat.mod_lt _ (by omega)))

theorem pad4_all_digits (n : Nat) : ∀ c ∈ pad4 n, c.isDigit = true := by
  intro c hc
  simp only [pad4, List.mem_cons, List.mem_singleton, List.not_mem_nil, or_false] at hc
  rcases hc with h | h | h | h <;> subst h <;>
    exact digitChar_isDigit (Nat.le_of_lt_succ (Nat.mod_lt _ (by omega)))

theorem digitsToNat_pad2 {n : Nat} (h : n ≤ 99) : digitsToNat (pad2 n) = n := by
  have e1 : digitVal (digitChar (n / 10 % 10)) = n / 10 % 10 := digitVal_digitChar (by omega)
  have e2 : digitVal (digitChar (n % 10)) = n % 10 := digitVal_digitChar (by omega)
  simp only [digitsToNat, pad2, List.foldl, e1, e2]
  omega

theorem digitsToNat_pad4 {n : Nat} (h : n ≤ 9999) : digitsToNat (pad4 n) = n := by
  have e1 : digitVal (digitChar (n / 1000 % 10)) = n / 1000 % 10 := digitVal_digitChar (by omega)
  have e2 : digitVal (digitChar (n / 100 % 10)) = n / 100 % 10 := digitVal_digitChar (by omega)
  have e3 : digitVal (digitChar (n / 10 % 10)) = n / 10 % 10 := digitVal_digitChar (by omega)
  have e4 : digitVal (digitChar (n % 10)) = n % 10 := digitVal_digitChar (by omega)
  simp only [digitsToNat, pad4, List.foldl, e1, e2, e3, e4]
  omega

/-- `takeDigits` splits a digit prefix off exactly at the first
non-digit character. -/
theorem takeDigits_append (ds r : List Char)
    (hds : ∀ c ∈ ds, c.isDigit = true)
    (hr : ∀ c ∈ r.take 1, c.isDigit = false) :
    takeDigits (ds ++ r) = (ds, r) := by
  induction ds with
  | nil =>
    cases r with
    | nil => rfl
    | cons c cs =>
      have : c.isDigit = false := hr c (by simp)
      simp [takeDigits, this]
  | cons c cs ih =>
    have hc : c.isDigit = true := hds c (by simp)
    have ih' := ih (fun x hx => hds x (by simp [hx]))
    simp [takeDigits, hc, ih']

theorem daysInMonth_le (y m : Nat) : daysInMonth y m ≤ 31 := by
  unfold daysInMonth
  split
  · split <;> omega
  · split <;> omega

/-- A two-digit-rendered field in range is consumed whole by
`readField` when followed by a non-digit. -/
theorem readField_pad2 {lo hi v : Nat} (r : List Char) (hv : v ≤ 99)
    (hr : ∀ c ∈ r.take 1, c.isDigit = false)
    (hlo : lo ≤ v) (hhi : v ≤ hi) :
    readField lo hi (pad2 v ++ r) = some (v, r) := by
  unfold readField
  rw [takeDigits_append (pad2 v) r (pad2_all_digits v) hr]
  have hlen : (pad2 v).length = 2 := rfl
  have hval : digitsToNat (pad2 v) = v := digitsToNat_pad2 hv
  simp [hlen, hval, hlo, hhi]

theorem take1_cons_not_digit {c : Char} (hc : c.isDigit = false) (r : List Char) :
    ∀ x ∈ (c :: r).take 1, x.isDigit = false := by
  intro x hx
  simp only [List.take_succ_cons, List.take_zero, List.mem_singleton] at hx
  subst hx
  exact hc

/-- Codec round trip: a `datetime` value rendered as
`'%Y:%m:%d %H:%M:%S'` parses back to itself. -/
theorem parse_formatDateTime (t : DateTime)
    (hdv : validDate t.year t.month t.day = true)
    (htv : validTime t.hour t.minute t.second = true) :
    parseExifDateTime (formatDateTime t) = some t := by
  obtain ⟨y, m, d, h, mi, s⟩ := t
  have hb : 1 ≤ y ∧ y ≤ 9999 ∧ 1 ≤ m ∧ m ≤ 12 ∧ 1 ≤ d ∧ d ≤ daysInMonth y m := by
    simpa [validDate, Bool.and_eq_true, decide_eq_true_eq, and_assoc] using hdv
  have htb : h ≤ 23 ∧ mi ≤ 59 ∧ s ≤ 59 := by
    simpa [validTime, Bool.and_eq_true, decide_eq_true_eq, and_assoc] using htv
  have hdle : d ≤ 31 := le_trans hb.2.2.2.2.2 (daysInMonth_le y m)
  have hlist : (formatDateTime ⟨y, m, d, h, mi, s⟩).toList
      = pad4 y ++ ':' :: (pad2 m ++ ':' :: (pad2 d ++ ' ' ::
        (pad2 h ++ ':' :: (pad2 mi ++ ':' :: pad2 s)))) := rfl
  have hcolon : (':' : Char).isDigit = false := by decide
  have hspace : (' ' : Char).isDigit = false := by decide
  have e0 : takeDigits (pad4 y ++ ':' :: (pad2 m ++ ':' :: (pad2 d ++ ' ' ::
        (pad2 h ++ ':' :: (pad2 mi ++ ':' :: pad2 s)))))
      = (pad4 y, ':' :: (pad2 m ++ ':' :: (pad2 d ++ ' ' ::
        (pad2 h ++ ':' :: (pad2 mi ++ ':' :: pad2 s))))) :=
    takeDigits_append _ _ (pad4_all_digits y) (take1_cons_not_digit hcolon _)
  have e1 : readField 1 12 (pad2 m ++ ':' :: (pad2 d ++ ' ' ::
        (pad2 h ++ ':' :: (pad2 mi ++ ':' :: pad2 s))))
      = some (m, ':' :: (pad2 d ++ ' ' :: (pad2 h ++ ':' :: (pad2 mi ++ ':' :: pad2 s)))) :=
    readField_pad2 _ (by omega) (take1_cons_not_digit hcolon _) hb.2.2.1 hb.2.2.2.1
  have e2 : readField 1 31 (pad2 d ++ ' ' :: (pad2 h ++ ':' :: (pad2 mi ++ ':' :: pad2 s)))
      = some (d, ' ' :: (pad2 h ++ ':' :: (pad2 mi ++ ':' :: pad2 s))) :=
    readField_pad2 _ (by omega) (take1_cons_not_digit hspace _) hb.2.2.2.2.1 hdle
  have e3 : readField 0 23 (pad2 h ++ ':' :: (pad2 mi ++ ':' :: pad2 s))
      = some (h, ':' :: (pad2 mi ++ ':' :: pad2 s)) :=
    readField_pad2 _ (by omega) (take1_cons_not_digit hcolon _) (Nat.zero_le h) htb.1
  have e4 : readField 0 59 (pad2 mi ++ ':' :: pad2 s) = some (mi, ':' :: pad2 s) :=
    readField_pad2 _ (by omega) (take1_cons_not_digit hcolon _) (Nat.zero_le mi) htb.2.1
  have e5 : readField 0 61 (pad2 s) = some (s, []) := by
    have := readField_pad2 ([] : List Char) (show s ≤ 99 by omega)
      (by intro x hx; simp at hx) (Nat.zero_le s) (show s ≤ 61 by omega)
    simpa using this
  have elen : (pad4 y).length = 4 := rfl
  have epad4 : digitsToNat (pad4 y) = y := digitsToNat_pad4 hb.2.1
  simp only [parseExifDateTime, hlist, e0, elen, expectChar, if_pos, Option.some_bind,
    e1, e2, e3, e4, e5, epad4, hdv, htv]
  simp

/-! ## Helper lemmas: leftmost pattern match -/

/-- `searchIMG` fails exactly when the pattern matches at no start
position. -/
theorem searchIMG_eq_none_iff (l : List Char) :
    searchIMG l = none ↔ ∀ i, matchIMGAt (l.drop i) = none := by
  induction l with
  | nil =>
    simp only [searchIMG, true_iff, List.drop_nil]
    exact fun _ => rfl
  | cons c r ih =>
    unfold searchIMG
    rcases hm : matchIMGAt (c :: r) with _ | ds
    · simp only [hm]
      rw [ih]
      constructor
      · intro hall i
        cases i with
        | zero => exact hm
        | succ j => simpa using hall j
      · intro hall j
        simpa using hall (j + 1)
    · simp only [hm]
      constructor
      · intro h; cases h
      · intro hall
        have := hall 0
        rw [List.drop_zero, hm] at this
        cases this

/-- `searchIMG` returns the leftmost match: if the pattern matches at
position `i` and at no earlier position, that match is the result. -/
theorem searchIMG_first (l : List Char) (i : Nat) (ds : List Char)
    (hm : matchIMGAt (l.drop i) = some ds)
    (hmin : ∀ j < i, matchIMGAt (l.drop j) = none) :
    searchIMG l = some ds := by
  induction l generalizing i with
  | nil =>
    rw [List.drop_nil] at hm
    cases hm
  | cons c r ih =>
    cases i with
    | zero =>
      rw [List.drop_zero] at hm
      unfold searchIMG
      rw [hm]
    | succ j =>
      have h0 : matchIMGAt (c :: r) = none := by
        have := hmin 0 (Nat.succ_pos j)
        rwa [List.drop_zero] at this
      unfold searchIMG
      rw [h0]
      exact ih j (by simpa using hm) (fun k hk => by simpa using hmin (k + 1) (by omega))

/-- Bounded check suffices: past the end of the list every attempt
fails. -/
theorem matchIMGAt_all_none (l : List Char)
    (h : ∀ i < l.length, matchIMGAt (l.drop i) = none) :
    ∀ i, matchIMGAt (l.drop i) = none := by
  intro i
  by_cases hi : i < l.length
  · exact h i hi
  · rw [List.drop_eq_nil_of_le (by omega)]
    rfl

/-- A successful `matchIMGAt` capture is 8 digit characters, and
`strptimeYMD` on it reduces to the validity test of the spelled-out
year/month/day. -/
theorem strptimeYMD_of_match (l ds : List Char) (h : matchIMGAt l = some ds) :
    strptimeYMD ds =
      (if validDate (digitsToNat (ds.take 4)) (digitsToNat ((ds.drop 4).take 2))
          (digitsToNat (ds.drop 6)) then
        some ⟨digitsToNat (ds.take 4), digitsToNat ((ds.drop 4).take 2),
          digitsToNat (ds.drop 6)⟩
      else none) := by
  unfold matchIMGAt at h
  split at h
  · split at h
    · injection h with h
      subst h
      rfl
    · cases h
  · cases h

/-! ## Helper lemmas: driver bookkeeping -/

/-- Every completed per-file step either had no filename date and
classified the file `unparsed`, or had one and classified it with one
of the four counted outcomes. -/
theorem processFile_outcome (f : ImageFile) (pr : ProcResult)
    (h : processFile f = .ok pr) :
    (hasFilenameDate f = false ∧ pr.outcome = .unparsed) ∨
    (hasFilenameDate f = true ∧ pr.outcome ≠ .unparsed) := by
  unfold processFile at h
  unfold hasFilenameDate
  rcases hx : extract_date_from_filename f.name with u | fd <;> rw [hx] at h
  · cases h
  · cases fd with
    | none =>
      injection h with h
      subst h
      exact Or.inl ⟨rfl, rfl⟩
    | some d =>
      refine Or.inr ⟨rfl, ?_⟩
      injection h with h
      subst h
      rcases hg : get_exif_date f with _ | e
      · rcases hu : update_exif_date f d with _ | out <;> simp
      · by_cases hde : e.dateOf = d
        · simp [hde]
        · rcases hu : update_exif_date f d with _ | out <;> simp [hde]

/-- One `tally` step grows the counter sum by one except on
`unparsed`. -/
theorem reportTotal_tally (r : UpdateReport) (o : FileOutcome) :
    reportTotal (tally r o) =
      reportTotal r + (if o = .unparsed then 0 else 1) := by
  cases o <;> simp [tally, reportTotal] <;> omega

/-- Loop invariant: a finished run's counter sum grew by the number of
files whose name yielded a date. -/
theorem runFiles_total (files : List ImageFile) :
    ∀ r0 r, runFiles r0 files = .ok r →
      reportTotal r = reportTotal r0 + (files.filter hasFilenameDate).length := by
  induction files with
  | nil =>
    intro r0 r h
    injection h with h
    subst h
    simp
  | cons f rest ih =>
    intro r0 r h
    unfold runFiles at h
    rcases hp : processFile f with u | pr <;> rw [hp] at h
    · cases h
    · have htot := ih _ _ h
      rcases processFile_outcome f pr hp with ⟨hf, ho⟩ | ⟨hf, ho⟩
      · rw [htot, reportTotal_tally, ho]
        simp [List.filter_cons, hf]
      · rw [htot, reportTotal_tally, if_neg ho]
        simp [List.filter_cons, hf]
        omega

/-! ## Concrete fixtures for the witnesses -/

/-- The empty IFD (`{}`). -/
def emptySection : ExifSection := fun _ => none

/-- A block with both sections present and no date fields. -/
def dictNoDate : ExifDict := ⟨some emptySection, some emptySection, none, none⟩

/-- A block whose `DateTimeOriginal` holds the given text. -/
def dictWithDate (s : String) : ExifDict :=
  ⟨some emptySection,
   some fun t => if t = DateTimeOriginalTag then some s else none,
   none, none⟩

/-- 2020-11-07. -/
def dNov : Date := ⟨2020, 11, 7⟩

/-- Scenario: parseable name, no embedded date, writable. -/
def fileAddOk : ImageFile := ⟨"IMG-20201107-WA0029.jpg", .ok dictNoDate, true⟩

/-- Scenario: parseable name, embedded date text that is not a valid
timestamp, writable. -/
def fileCorrupt : ImageFile := ⟨"IMG-20201107-WA0029.jpg", .ok (dictWithDate "corrupt"), true⟩

/-- Scenario: parseable name, `piexif.load` raises. -/
def fileLoadFail : ImageFile := ⟨"IMG-20201107-WA0029.jpg", .error (), true⟩

/-- Scenario: parseable name, embedded date on a different day. -/
def fileOverwrite : ImageFile :=
  ⟨"IMG-20201107-WA0031.jpg", .ok (dictWithDate "2019:01:01 00:00:00"), true⟩

/-- Scenario: parseable name, no embedded date, write side fails. -/
def fileWriteFail : ImageFile := ⟨"IMG-20201107-WA0029.jpg", .ok dictNoDate, false⟩

/-- Scenario: parseable name, embedded date on the same day. -/
def filePreserve : ImageFile :=
  ⟨"IMG_20201107_WA0030.jpg", .ok (dictWithDate "2020:11:07 14:22:01"), true⟩

/-- Scenario: name without the pattern. -/
def fileNoPattern : ImageFile := ⟨"random_photo.jpg", .ok dictNoDate, true⟩

/-! ## Claim theorems -/

/-- The `'%Y:%m:%d 09:00:00'` output is the generic rendering of the
date at the fixed synthetic time 09:00:00. -/
theorem exifDateString_eq (d : Date) :
    exifDateString d = formatDateTime ⟨d.year, d.month, d.day, 9, 0, 0⟩ := by
  have htail : (['0', '9', ':', '0', '0', ':', '0', '0'] : List Char)
      = pad2 9 ++ ':' :: (pad2 0 ++ ':' :: pad2 0) := by decide
  show String.mk (pad4 d.year ++ ':' :: (pad2 d.month ++ ':' :: (pad2 d.day ++ ' ' ::
        ['0', '9', ':', '0', '0', ':', '0', '0'])))
      = String.mk (pad4 d.year ++ ':' :: (pad2 d.month ++ ':' :: (pad2 d.day ++ ' ' ::
        (pad2 9 ++ ':' :: (pad2 0 ++ ':' :: pad2 0)))))
  exact congrArg String.mk (by rw [htail])

/-- C1: the reconciliation decision follows the four-row table with a
date-only comparison: no filename date → `Unparseable` (file copied
verbatim, no counter bumped); filename date and no embedded date →
`Add`; both present with the same calendar date (any time of day) →
`Preserve`; both present with different calendar dates →
`Overwrite`. -/
theorem C1_reconcile_table :
    (∀ e, reconcile none e = .unparseable) ∧
    (∀ d, reconcile (some d) none = .add) ∧
    (∀ d e, DateTime.dateOf e = d → reconcile (some d) (some e) = .preserve) ∧
    (∀ d e, DateTime.dateOf e ≠ d → reconcile (some d) (some e) = .overwrite) ∧
    (∀ f, extract_date_from_filename f.name = .ok none →
      processFile f = .ok ⟨.unparsed, .verbatim⟩) ∧
    (∀ r, tally r .unparsed = r) := by
  refine ⟨fun e => rfl, fun d => rfl, ?_, ?_, ?_, fun r => rfl⟩
  · intro d e h
    simp [reconcile, h]
  · intro d e h
    simp [reconcile, h]
  · intro f h
    simp [processFile, h]

theorem C1_witness :
    reconcile none (some ⟨2019, 1, 1, 0, 0, 0⟩) = .unparseable ∧
    reconcile (some dNov) none = .add ∧
    reconcile (some dNov) (some ⟨2020, 11, 7, 14, 22, 1⟩) = .preserve ∧
    reconcile (some dNov) (some ⟨2019, 1, 1, 0, 0, 0⟩) = .overwrite ∧
    processFile fileNoPattern = .ok ⟨.unparsed, .verbatim⟩ ∧
    tally {} .unparsed = {} :=
  ⟨C1_reconcile_table.1 _, C1_reconcile_table.2.1 _,
   C1_reconcile_table.2.2.1 _ _ (by decide),
   C1_reconcile_table.2.2.2.1 _ _ (by decide),
   C1_reconcile_table.2.2.2.2.1 fileNoPattern rfl,
   C1_reconcile_table.2.2.2.2.2 {}⟩

/-- C9: an empty enumerated input set prints the distinct "no files
found" message and ends the run early: no timestamped output
subdirectory is created, no file is processed, and the four-counter
report is not printed. -/
theorem C9_empty_input :
    mainRun [] =
      { noFilesMessage := true, outputDirCreated := false, printedSummary := none } :=
  rfl

/-- C3: on the Add and Overwrite paths, a successful
`_update_exif_date` writes the identical textual timestamp
`YYYY:MM:DD 09:00:00` (fixed synthetic hour) into exactly the three
date fields `DateTimeOriginal`, `DateTimeDigitized` and the top-level
`DateTime`. -/
theorem C3_three_fields (f : ImageFile) (d : Date) (out : ExifDict)
    (h : update_exif_date f d = some out) :
    sectionGet out.exifIFD DateTimeOriginalTag = some (exifDateString d) ∧
    sectionGet out.exifIFD DateTimeDigitizedTag = some (exifDateString d) ∧
    sectionGet out.zeroth DateTimeTag = some (exifDateString d) ∧
    exifDateString d = formatDateTime ⟨d.year, d.month, d.day, 9, 0, 0⟩ := by
  rcases hl : f.loaded with u | dict <;> simp [update_exif_date, hl] at h
  obtain ⟨hw, hout⟩ := h
  subst hout
  exact ⟨rfl, rfl, rfl, exifDateString_eq d⟩

theorem C3_witness :
    sectionGet (setExifDates dictNoDate dNov).exifIFD DateTimeOriginalTag
      = some (exifDateString dNov) ∧
    sectionGet (setExifDates dictNoDate dNov).exifIFD DateTimeDigitizedTag
      = some (exifDateString dNov) ∧
    sectionGet (setExifDates dictNoDate dNov).zeroth DateTimeTag
      = some (exifDateString dNov) ∧
    exifDateString dNov = formatDateTime ⟨2020, 11, 7, 9, 0, 0⟩ :=
  C3_three_fields fileAddOk dNov (setExifDates dictNoDate dNov) rfl

/-- C10 (frame): a successful `_update_exif_date` carries every
metadata field other than the three date fields into the output block
unchanged. -/
theorem C10_frame (f : ImageFile) (d : Date) (dict out : ExifDict)
    (hl : f.loaded = .ok dict) (h : update_exif_date f d = some out) :
    (∀ t, t ≠ DateTimeTag → sectionGet out.zeroth t = sectionGet dict.zeroth t) ∧
    (∀ t, t ≠ DateTimeOriginalTag → t ≠ DateTimeDigitizedTag →
      sectionGet out.exifIFD t = sectionGet dict.exifIFD t) ∧
    out.gps = dict.gps ∧ out.thumbnail = dict.thumbnail := by
  simp [update_exif_date, hl] at h
  obtain ⟨hw, hout⟩ := h
  subst hout
  refine ⟨?_, ?_, rfl, rfl⟩
  · intro t ht
    simp [setExifDates, sectionGet, ht]
  · intro t h1 h2
    simp [setExifDates, sectionGet, h1, h2]

theorem C10_witness :
    sectionGet (setExifDates dictNoDate dNov).zeroth 700
      = sectionGet dictNoDate.zeroth 700 ∧
    sectionGet (setExifDates dictNoDate dNov).exifIFD 700
      = sectionGet dictNoDate.exifIFD 700 ∧
    (setExifDates dictNoDate dNov).gps = dictNoDate.gps ∧
    (setExifDates dictNoDate dNov).thumbnail = dictNoDate.thumbnail := by
  have h := C10_frame fileAddOk dNov dictNoDate (setExifDates dictNoDate dNov) rfl rfl
  exact ⟨h.1 700 (by decide), h.2.1 700 (by decide) (by decide), h.2.2⟩

/-- C8 (round trip): re-extracting the embedded date from the block a
successful `_update_exif_date` wrote yields exactly the filename's
calendar date at the fixed time 09:00:00.  (`g` is the output copy as
the reader sees it: a file whose metadata block loads as the written
block; the serialisation fidelity of the external codec is outside
the embedding.)  The filename date carries Python `datetime`'s
validity invariant, stated here as the `validDate` hypothesis. -/
theorem C8_round_trip (f g : ImageFile) (d : Date) (out : ExifDict)
    (hv : validDate d.year d.month d.day = true)
    (h : update_exif_date f d = some out)
    (hg : g.loaded = .ok out) :
    get_exif_date g = some ⟨d.year, d.month, d.day, 9, 0, 0⟩ := by
  rcases hl : f.loaded with u | dict <;> simp [update_exif_date, hl] at h
  obtain ⟨hw, hout⟩ := h
  subst hout
  simp [get_exif_date, hg, setExifDates, sectionGet, exifDateString_eq]
  exact parse_formatDateTime _ hv (show validTime 9 0 0 = true by decide)

theorem C8_witness :
    validDate dNov.year dNov.month dNov.day = true ∧
    get_exif_date ⟨"IMG-20201107-WA0029.jpg", .ok (setExifDates dictNoDate dNov), true⟩
      = some ⟨2020, 11, 7, 9, 0, 0⟩ :=
  ⟨by decide,
   C8_round_trip fileAddOk ⟨"IMG-20201107-WA0029.jpg", .ok (setExifDates dictNoDate dNov), true⟩
     dNov (setExifDates dictNoDate dNov) (by decide) rfl rfl⟩

/-- C6: `_get_exif_date` returns the parsed `DateTimeOriginal` value
when that field is present, falls back to the top-level `DateTime`
field when it is absent, and returns `None` — never raising — when the
block fails to load, when neither field is present, or when a present
field's text fails to parse as `YYYY:MM:DD HH:MM:SS` (a well-formed
rendering of a valid date-time parses to exactly that value; malformed
text parses to `none`). -/
theorem C6_embedded_date (f : ImageFile) (dict : ExifDict) :
    (f.loaded = .error () → get_exif_date f = none) ∧
    (∀ ex s, f.loaded = .ok dict → dict.exifIFD = some ex →
      ex DateTimeOriginalTag = some s → get_exif_date f = parseExifDateTime s) ∧
    (∀ ex z s, f.loaded = .ok dict → dict.exifIFD = some ex →
      ex DateTimeOriginalTag = none → dict.zeroth = some z →
      z DateTimeTag = some s → get_exif_date f = parseExifDateTime s) ∧
    (∀ ex z, f.loaded = .ok dict → dict.exifIFD = some ex →
      ex DateTimeOriginalTag = none → dict.zeroth = some z →
      z DateTimeTag = none → get_exif_date f = none) ∧
    (∀ t : DateTime, validDate t.year t.month t.day = true →
      validTime t.hour t.minute t.second = true →
      parseExifDateTime (formatDateTime t) = some t) ∧
    parseExifDateTime "not a timestamp" = none := by
  refine ⟨?_, ?_, ?_, ?_, parse_formatDateTime, rfl⟩
  · intro h
    simp [get_exif_date, h]
  · intro ex s hl hex hs
    simp [get_exif_date, hl, hex, hs]
  · intro ex z s hl hex ho hz hs
    simp [get_exif_date, hl, hex, ho, hz, hs]
  · intro ex z hl hex ho hz ht
    simp [get_exif_date, hl, hex, ho, hz, ht]

theorem C6_witness :
    get_exif_date fileLoadFail = none ∧
    get_exif_date filePreserve = parseExifDateTime "2020:11:07 14:22:01" ∧
    parseExifDateTime (formatDateTime ⟨2020, 11, 7, 14, 22, 1⟩)
      = some ⟨2020, 11, 7, 14, 22, 1⟩ ∧
    parseExifDateTime "not a timestamp" = none :=
  ⟨(C6_embedded_date fileLoadFail dictNoDate).1 rfl,
   (C6_embedded_date filePreserve (dictWithDate "2020:11:07 14:22:01")).2.1 _
     "2020:11:07 14:22:01" rfl rfl rfl,
   (C6_embedded_date fileLoadFail dictNoDate).2.2.2.2.1 ⟨2020, 11, 7, 14, 22, 1⟩
     (by decide) (by decide),
   (C6_embedded_date fileLoadFail dictNoDate).2.2.2.2.2⟩

/-- C7: `_update_exif_date` signals failure by its return value
(`False`, modelled `none`) rather than raising past the file boundary,
and on each branch that attempts it (Add and Overwrite) the driver
reacts to failure by copying the file verbatim and bumping exactly the
`failed` counter. -/
theorem C7_write_failure (f : ImageFile) (d : Date)
    (hx : extract_date_from_filename f.name = .ok (some d))
    (hu : update_exif_date f d = none) :
    (get_exif_date f = none → processFile f = .ok ⟨.failedFile, .verbatim⟩) ∧
    (∀ e, get_exif_date f = some e → DateTime.dateOf e ≠ d →
      processFile f = .ok ⟨.failedFile, .verbatim⟩) ∧
    (∀ r, (tally r .failedFile).failed = r.failed + 1 ∧
      (tally r .failedFile).updated = r.updated ∧
      (tally r .failedFile).added = r.added ∧
      (tally r .failedFile).preserved = r.preserved) := by
  refine ⟨?_, ?_, fun r => ⟨rfl, rfl, rfl, rfl⟩⟩
  · intro hg
    simp [processFile, hx, hg, hu]
  · intro e hg hne
    simp [processFile, hx, hg, hne, hu]

theorem C7_witness :
    processFile fileWriteFail = .ok ⟨.failedFile, .verbatim⟩ ∧
    (tally {} .failedFile).failed = 0 + 1 := by
  have h := C7_write_failure fileWriteFail dNov rfl rfl
  exact ⟨h.1 rfl, (h.2.2 {}).1⟩

/-- C4 (counterexample): a file whose filename date parses and whose
embedded-metadata read fails is NOT always copied unmodified with
`failed` incremented.  Here the block loads but `DateTimeOriginal`
holds unparseable text, so the read fails (the caught `strptime` error
surfaces as `None`); the driver then takes the Add path, the write
succeeds, the output copy is rewritten — not verbatim — and `added`,
not `failed`, is incremented. -/
theorem C4_counterexample :
    sectionGet (dictWithDate "corrupt").exifIFD DateTimeOriginalTag = some "corrupt" ∧
    parseExifDateTime "corrupt" = none ∧
    get_exif_date fileCorrupt = none ∧
    processFile fileCorrupt
      = .ok ⟨.addedFile, .rewritten (setExifDates (dictWithDate "corrupt") dNov)⟩ ∧
    (tally {} .addedFile).added = 1 ∧ (tally {} .addedFile).failed = 0 ∧
    FileOutcome.addedFile ≠ FileOutcome.failedFile :=
  ⟨rfl, rfl, rfl, rfl, rfl, rfl, by decide⟩

/-- C4 (amended): a metadata read failure is caught at the file
granularity and surfaces as "no embedded date", which routes the file
to the Add path; the file is copied unmodified with `failed`
incremented exactly when the subsequent metadata write also fails
(as it necessarily does when the read failure was a load failure,
since both read and write load the same file); when the write
succeeds, the output copy is rewritten and `added` is incremented
instead. -/
theorem C4_read_failure_routes_to_add (f : ImageFile) (d : Date)
    (hx : extract_date_from_filename f.name = .ok (some d))
    (hg : get_exif_date f = none) :
    (update_exif_date f d = none →
      processFile f = .ok ⟨.failedFile, .verbatim⟩ ∧
      ∀ r, (tally r .failedFile).failed = r.failed + 1) ∧
    (∀ out, update_exif_date f d = some out →
      processFile f = .ok ⟨.addedFile, .rewritten out⟩ ∧
      ∀ r, (tally r .addedFile).added = r.added + 1 ∧
        (tally r .addedFile).failed = r.failed) ∧
    (f.loaded = .error () → update_exif_date f d = none) := by
  refine ⟨?_, ?_, ?_⟩
  · intro hu
    exact ⟨by simp [processFile, hx, hg, hu], fun r => rfl⟩
  · intro out hu
    exact ⟨by simp [processFile, hx, hg, hu], fun r => ⟨rfl, rfl⟩⟩
  · intro hl
    simp [update_exif_date, hl]

theorem C4_witness :
    processFile fileLoadFail = .ok ⟨.failedFile, .verbatim⟩ ∧
    processFile fileCorrupt
      = .ok ⟨.addedFile, .rewritten (setExifDates (dictWithDate "corrupt") dNov)⟩ ∧
    update_exif_date fileLoadFail dNov = none :=
  ⟨((C4_read_failure_routes_to_add fileLoadFail dNov rfl rfl).1 rfl).1,
   ((C4_read_failure_routes_to_add fileCorrupt dNov rfl rfl).2.1 _ rfl).1,
   (C4_read_failure_routes_to_add fileLoadFail dNov rfl rfl).2.2 rfl⟩

/-- C5: in a completed batch run, each processed file whose filename
yields a date bumps the counter sum by exactly one and each file whose
filename yields none bumps it by zero, so the final
`updated + added + failed + preserved` equals the number of files with
a parseable filename date.  (A run in which some filename raises the
uncaught `strptime` error never completes and prints no report, so it
is not a completed run here.) -/
theorem C5_counter_sum (files : List ImageFile) (r : UpdateReport)
    (h : runFiles {} files = .ok r) :
    (∀ f pr r0, processFile f = .ok pr →
      reportTotal (tally r0 pr.outcome)
        = reportTotal r0 + (if hasFilenameDate f then 1 else 0)) ∧
    reportTotal r = (files.filter hasFilenameDate).length := by
  constructor
  · intro f pr r0 hp
    rw [reportTotal_tally]
    rcases processFile_outcome f pr hp with ⟨hf, ho⟩ | ⟨hf, ho⟩ <;> simp [hf, ho]
  · have htot := runFiles_total files {} r h
    simpa [reportTotal] using htot

theorem C5_witness :
    reportTotal ⟨0, 1, 0, 1⟩
      = ([fileAddOk, fileNoPattern, filePreserve].filter hasFilenameDate).length ∧
    reportTotal (tally {} FileOutcome.unparsed) = reportTotal {} + 0 := by
  have h := C5_counter_sum [fileAddOk, fileNoPattern, filePreserve] ⟨0, 1, 0, 1⟩ rfl
  refine ⟨h.2, ?_⟩
  have h1 := h.1 fileNoPattern ⟨.unparsed, .verbatim⟩ {} rfl
  simpa using h1

/-- C2 (counterexample): a filename matching the pattern whose 8-digit
group is not a valid calendar date (month 13) does not make
`_extract_date_from_filename` return none — the `strptime` call raises
an uncaught `ValueError` instead. -/
theorem C2_counterexample :
    extract_date_from_filename "IMG-20201399-WA0001.jpg" = .error () ∧
    extract_date_from_filename "IMG-20201399-WA0001.jpg" ≠ .ok none :=
  ⟨rfl, fun h => by cases h.symm.trans (rfl : extract_date_from_filename
    "IMG-20201399-WA0001.jpg" = .error ())⟩

/-- C2 (amended): `extractFilenameDate` returns the encoded calendar
date exactly when the filename matches `IMG[-_]\d{8}[-_]` somewhere
with the leftmost match's 8 digits decoding as a valid `YYYYMMDD`
date; it returns none exactly when the pattern matches nowhere; and on
a leftmost match whose digits are not a valid date it raises an
unhandled parse error instead of returning none.  Only the first
(leftmost) match is used. -/
theorem C2_extract_characterisation (s : String) :
    ((∀ i, matchIMGAt (s.toList.drop i) = none) →
      extract_date_from_filename s = .ok none) ∧
    (∀ i ds, matchIMGAt (s.toList.drop i) = some ds →
      (∀ j < i, matchIMGAt (s.toList.drop j) = none) →
      extract_date_from_filename s =
        (if validDate (digitsToNat (ds.take 4)) (digitsToNat ((ds.drop 4).take 2))
            (digitsToNat (ds.drop 6)) then
          .ok (some ⟨digitsToNat (ds.take 4), digitsToNat ((ds.drop 4).take 2),
            digitsToNat (ds.drop 6)⟩)
        else .error ())) := by
  constructor
  · intro hall
    have hs : searchIMG s.toList = none := (searchIMG_eq_none_iff s.toList).2 hall
    unfold extract_date_from_filename
    rw [hs]
  · intro i ds hm hmin
    have hs : searchIMG s.toList = some ds := searchIMG_first s.toList i ds hm hmin
    have hy := strptimeYMD_of_match _ ds hm
    unfold extract_date_from_filename
    rw [hs]
    show (match strptimeYMD ds with
      | some d => (Except.ok (some d) : Except Unit (Option Date))
      | none => Except.error ()) = _
    rw [hy]
    by_cases hv : validDate (digitsToNat (ds.take 4)) (digitsToNat ((ds.drop 4).take 2))
        (digitsToNat (ds.drop 6)) = true
    · rw [if_pos hv, if_pos hv]
    · rw [if_neg hv, if_neg hv]

theorem C2_witness :
    extract_date_from_filename "random_photo.jpg" = .ok none ∧
    extract_date_from_filename "IMG-20201107-WA0029.jpg" = .ok (some ⟨2020, 11, 7⟩) := by
  constructor
  · exact (C2_extract_characterisation "random_photo.jpg").1
      (matchIMGAt_all_none _ (by decide))
  · have h := (C2_extract_characterisation "IMG-20201107-WA0029.jpg").2 0
      ['2', '0', '2', '0', '1', '1', '0', '7'] rfl (fun j hj => by omega)
    exact h.trans rfl
